import Mathlib

/-!
# Saber-Translator — Manga Insight core: shallow embedding and verification

This file embeds the hierarchical batch-analysis pipeline and its task-lifecycle
controller from `src/core/manga_insight` (`task_manager.py`, `analyzer.py`,
`storage.py`) and proves the frozen claims about them.

Conventions of the embedding:
- Python dicts used as keyed tables become association lists with `dictGet` /
  `dictSet` (lookup finds the most recent binding; `dictSet` replaces a binding).
- Timestamp fields (`started_at`, `saved_at`, `analyzed_at`, ...) carry no
  information relevant to any claim and are not modelled.
- Blocking external calls (VLM / LLM clients) are oracles passed as function
  arguments; a fallible call is an `Option`-valued oracle (`none` = the call
  raised).
- Worker threads are modelled by explicit state passing: each controller or
  worker operation is a function on the manager state.
-/

namespace MangaInsight

/-- Association-list lookup, modelling Python `dict.get`. -/
def dictGet {κ β : Type} [DecidableEq κ] (m : List (κ × β)) (k : κ) : Option β :=
  match m with
  | [] => none
  | (k', v) :: rest => if k = k' then some v else dictGet rest k

/-- Association-list update, modelling Python `dict[k] = v` (insert or replace). -/
def dictSet {κ β : Type} [DecidableEq κ] (m : List (κ × β)) (k : κ) (v : β) :
    List (κ × β) :=
  (k, v) :: m.filter (fun p => p.1 ≠ k)

/-- Task status. Modelled from the spec: `task_models.py` (the `TaskStatus` enum and
the `AnalysisTask` dataclass) is not among the sources; the six states are those
of the spec's state machine (§4.5: Pending, Running, Paused, Cancelled,
Completed, Failed), exactly the members `task_manager.py` references.
-/
inductive TaskStatus : Type where
  | pending
  | running
  | paused
  | cancelled
  | completed
  | failed
deriving DecidableEq, Repr

/-- Is the status terminal (Cancelled, Completed or Failed)? -/
def TaskStatus.isTerminal : TaskStatus → Bool
  | .cancelled => true
  | .completed => true
  | .failed => true
  | _ => false

/-- The per-task record fields `task_manager.py` reads and writes when deciding
lifecycle transitions: the owning book and the current status.  Modelled from
the spec (§3 Task) for the carrier; other fields (progress snapshot,
timestamps, failed-page list) are modelled where a claim needs them.
-/
structure TaskRec : Type where
  bookId : String
  status : TaskStatus
deriving DecidableEq, Repr

/-- The mutable state of `AnalysisTaskManager`:
`tasks` (task_id → task), `book_tasks` (book_id → task ids, maintained by
`create_task`), `_pause_events` (task_id → event-is-set; `true` means the gate
is open / not paused), `_cancel_flags`, and `running_tasks` (the keys only:
which tasks have a launched worker).
-/
structure ManagerState : Type where
  tasks : List (String × TaskRec)
  bookTasks : List (String × List String)
  pauseEvents : List (String × Bool)
  cancelFlags : List (String × Bool)
  workers : List String
deriving DecidableEq, Repr

/-- The status of a task in the manager state, if the task exists. -/
def statusOf (s : ManagerState) (tid : String) : Option TaskStatus :=
  (dictGet s.tasks tid).map (fun t => t.status)

/-- Embeds `AnalysisTaskManager.start_task` (task_manager.py:95-141): reject when the task
is unknown, already Running, or some other task of the same book is Running;
otherwise set the status to Running and launch a worker (the recorded
`started_at` timestamp is not modelled).
-/
def start_task (s : ManagerState) (tid : String) : Bool × ManagerState :=
  match dictGet s.tasks tid with
  | none => (false, s)
  | some task =>
    if task.status = TaskStatus.running then (false, s)
    else if ((dictGet s.bookTasks task.bookId).getD []).any (fun t =>
        match dictGet s.tasks t with
        | some other =>
            decide (¬ t = tid) && decide (other.status = TaskStatus.running)
        | none => false) then (false, s)
    else
      (true, { s with
        tasks := dictSet s.tasks tid { task with status := TaskStatus.running },
        workers := tid :: s.workers })

/-- Embeds `AnalysisTaskManager.pause_task` (task_manager.py:143-164): only valid from
Running; sets Paused and clears the pause gate.  (In reachable states the
task's gate entry always exists, created by `create_task`; `dictSet` models
the in-place `Event.clear`.)
-/
def pause_task (s : ManagerState) (tid : String) : Bool × ManagerState :=
  match dictGet s.tasks tid with
  | none => (false, s)
  | some task =>
    if task.status = TaskStatus.running then
      (true, { s with
        tasks := dictSet s.tasks tid { task with status := TaskStatus.paused },
        pauseEvents := dictSet s.pauseEvents tid false })
    else (false, s)

/-- Embeds `AnalysisTaskManager.resume_task` (task_manager.py:166-187): only valid from
Paused; sets Running and sets the pause gate.
-/
def resume_task (s : ManagerState) (tid : String) : Bool × ManagerState :=
  match dictGet s.tasks tid with
  | none => (false, s)
  | some task =>
    if task.status = TaskStatus.paused then
      (true, { s with
        tasks := dictSet s.tasks tid { task with status := TaskStatus.running },
        pauseEvents := dictSet s.pauseEvents tid true })
    else (false, s)

/-- Embeds `AnalysisTaskManager.cancel_task` (task_manager.py:189-217): valid from
Pending, Running or Paused; sets Cancelled, raises the cancel flag, and when
the task has a pause gate, signals it so a paused worker wakes up.
-/
def cancel_task (s : ManagerState) (tid : String) : Bool × ManagerState :=
  match dictGet s.tasks tid with
  | none => (false, s)
  | some task =>
    if task.status = TaskStatus.pending ∨ task.status = TaskStatus.running ∨
        task.status = TaskStatus.paused then
      (true, { s with
        tasks := dictSet s.tasks tid { task with status := TaskStatus.cancelled },
        cancelFlags := dictSet s.cancelFlags tid true,
        pauseEvents :=
          if (dictGet s.pauseEvents tid).isSome then dictSet s.pauseEvents tid true
          else s.pauseEvents })
    else (false, s)

/-- Embeds `AnalysisTaskManager._check_pause_and_cancel` (task_manager.py:374-394), the
worker checkpoint, evaluated at a moment when the pause gate is set (the
`Event.wait` has returned; waiting does not change state).  The value is the
cancel-flag read — covering both the pre-wait check and the post-wake re-check,
which read the same flag of the current state.  `true` = keep working,
`false` = stop.
-/
def check_pause_and_cancel (s : ManagerState) (tid : String) : Bool :=
  !((dictGet s.cancelFlags tid).getD false)

/-- The cooperative epilogue of `AnalysisTaskManager._execute_task`
(task_manager.py:310-318, 329-332): after the body returns, consult the cancel
flag — if raised mark Cancelled, otherwise mark Completed — and retire the
worker.
-/
def worker_finish (s : ManagerState) (tid : String) : ManagerState :=
  match dictGet s.tasks tid with
  | none => s
  | some task =>
    if (dictGet s.cancelFlags tid).getD false then
      { s with
        tasks := dictSet s.tasks tid { task with status := TaskStatus.cancelled },
        workers := s.workers.erase tid }
    else
      { s with
        tasks := dictSet s.tasks tid { task with status := TaskStatus.completed },
        workers := s.workers.erase tid }

/-- The exceptional epilogue of `AnalysisTaskManager._execute_task`
(task_manager.py:325-332): an unhandled error in the body marks the task
Failed and retires the worker (the captured error message is not modelled).
-/
def worker_fail (s : ManagerState) (tid : String) : ManagerState :=
  match dictGet s.tasks tid with
  | none => s
  | some task =>
    { s with
      tasks := dictSet s.tasks tid { task with status := TaskStatus.failed },
      workers := s.workers.erase tid }

/-- The operations that can touch a task's status after it has been cancelled
while paused: further controller calls (`pause_task`, `resume_task`,
`cancel_task`) on any task, and the worker's own termination paths
(`worker_finish` on normal return, `worker_fail` on an unhandled error).
The worker checkpoint `check_pause_and_cancel` is read-only and so needs no
operation here.
-/
inductive WorkerOp : Type where
  | pauseCall (tid : String)
  | resumeCall (tid : String)
  | cancelCall (tid : String)
  | finishCall (tid : String)
  | failCall (tid : String)
deriving DecidableEq, Repr

/-- Apply one operation to the manager state. -/
def applyOp (s : ManagerState) : WorkerOp → ManagerState
  | .pauseCall t => (pause_task s t).2
  | .resumeCall t => (resume_task s t).2
  | .cancelCall t => (cancel_task s t).2
  | .finishCall t => worker_finish s t
  | .failCall t => worker_fail s t

/-- Apply a sequence of operations to the manager state. -/
def applyOps (s : ManagerState) (ops : List WorkerOp) : ManagerState :=
  ops.foldl applyOp s

/-- One per-page summary inside a batch result (an element of the `pages` list of
the VLM response), with the bookkeeping fields `analyze_batch` stamps on it
before fanning it out to the page-level store (analyzer.py:271-278).
-/
structure PageData : Type where
  pageNumber : Option Nat := none
  pageSummary : String := ""
  fromBatch : Bool := false
  batchRange : Option (Nat × Nat) := none
deriving DecidableEq, Repr

/-- A `BatchResult` record (spec §3; the dict produced by the VLM client and
persisted by `AnalysisStorage.save_batch_analysis`).  `pageRange` is `none`
until `save_batch_analysis` stamps it; timestamp fields are not modelled.
-/
structure BatchRecord : Type where
  pageRange : Option (Nat × Nat) := none
  batchSummary : String := ""
  keyEvents : List String := []
  continuityNotes : String := ""
  parseError : Bool := false
  pages : List PageData := []
deriving DecidableEq, Repr

/-- The Result Store regions `analyze_batch` touches: the batch store keyed by
(start_page, end_page) (`batches/batch_SSS_EEE.json`) and the page store keyed
by page number (`pages/page_NNN.json`).
-/
structure Store : Type where
  batches : List ((Nat × Nat) × BatchRecord) := []
  pages : List (Nat × PageData) := []
deriving DecidableEq, Repr

/-- Embeds `AnalysisStorage.load_batch_analysis` (storage.py:258-261): read the record
keyed by the page range, `none` when absent. -/
def load_batch_analysis (st : Store) (startPage endPage : Nat) : Option BatchRecord :=
  dictGet st.batches (startPage, endPage)

/-- Embeds `AnalysisStorage.save_batch_analysis` (storage.py:263-268): overwrite the
record's `page_range` with the key it is stored under, then persist it at that
key (the `saved_at` timestamp is not modelled). -/
def save_batch_analysis (st : Store) (startPage endPage : Nat) (analysis : BatchRecord) :
    Store :=
  let stamped := { analysis with pageRange := some (startPage, endPage) }
  { st with batches := dictSet st.batches (startPage, endPage) stamped }

/-- Embeds `AnalysisStorage.save_page_analysis` (storage.py:90-93). -/
def save_page_analysis (st : Store) (pageNum : Nat) (pd : PageData) : Store :=
  { st with pages := dictSet st.pages pageNum pd }

/-- The context-window computation shared by
`AnalysisTaskManager._analyze_single_batch` (task_manager.py:564-568) and
`MangaAnalyzer.analyze_chapter_with_segments` (analyzer.py:536-541): when
`context_batch_count > 0`, keep the prior results not flagged `parse_error`
and take the last `context_batch_count` of them (Python `valid[-k:]`),
otherwise pass no context.
-/
def contextWindow (batchResults : List BatchRecord) (contextBatchCount : Int) :
    List BatchRecord :=
  if 0 < contextBatchCount then
    let valid := batchResults.filter (fun r => !r.parseError)
    valid.drop (valid.length - contextBatchCount.toNat)
  else []

/-- The stored batch preceding `start_page`, for the single-batch context fallback
of `MangaAnalyzer._build_batch_context` (analyzer.py:291-302): Python sorts the
stored ranges by start page, walks them in reverse and takes the first whose
end page is below `start_page` — i.e. the stored batch with the greatest start
page among those ending before `start_page`.
-/
def prevStoredBatch (st : Store) (startPage : Nat) : Option ((Nat × Nat) × BatchRecord) :=
  st.batches.foldl (fun best kv =>
    if kv.1.2 < startPage then
      match best with
      | none => some kv
      | some b => if b.1.1 ≤ kv.1.1 then some kv else some b
    else best) none

/-- Embeds `MangaAnalyzer._build_batch_context` (analyzer.py:282-304), reduced to the list
of prior-batch records rendered into the prompt: the caller-supplied
`previous_results` when nonempty, else the most recent stored batch before
`start_page` (when `start_page > 1`), else nothing.
-/
def build_batch_context (st : Store) (startPage : Nat)
    (previousResults : List BatchRecord) : List BatchRecord :=
  if 0 < previousResults.length then previousResults
  else if 1 < startPage then
    match prevStoredBatch st startPage with
    | some kv => [kv.2]
    | none => []
  else []

/-- The per-page fanout of `MangaAnalyzer.analyze_batch` (analyzer.py:271-278):
each page of the result that carries a truthy `page_number` (Python: page 0 is
falsy and skipped) is stamped with `from_batch` and the batch range and saved
to the page store.
-/
def savePageFanout (st : Store) (startPage endPage : Nat) (pages : List PageData) :
    Store :=
  pages.foldl (fun acc pd =>
    match pd.pageNumber with
    | some pn =>
        if pn = 0 then acc
        else save_page_analysis acc pn
          { pd with fromBatch := true, batchRange := some (startPage, endPage) }
    | none => acc) st

/-- The compute path of `MangaAnalyzer.analyze_batch` (analyzer.py:244-280): build
the context, call the VLM oracle, persist the batch record (which stamps
`page_range` on the record — the Python dict is mutated in place, so the
returned record carries the stamp too), fan out the per-page summaries, and
return the result.  The returned `Bool` records that the Content Analysis
Client was invoked.
-/
def analyze_batch_compute (vlm : List Nat → Nat → List BatchRecord → BatchRecord)
    (st : Store) (startPage endPage : Nat) (pageNums : List Nat)
    (previousResults : List BatchRecord) : Option BatchRecord × Store × Bool :=
  let ctx := build_batch_context st startPage previousResults
  let result0 := vlm pageNums startPage ctx
  let result := { result0 with pageRange := some (startPage, endPage) }
  let st1 := save_batch_analysis st startPage endPage result0
  let st2 := savePageFanout st1 startPage endPage result.pages
  (some result, st2, true)

/-- Embeds `MangaAnalyzer.analyze_batch` (analyzer.py:210-280): empty page list returns
the empty dict (modelled `none`) at once; otherwise key the cache by
(min, max) of the page numbers; on a non-forced call a cached record not
flagged `parse_error` is returned unchanged, else the compute path runs.
-/
def analyze_batch (vlm : List Nat → Nat → List BatchRecord → BatchRecord)
    (st : Store) (pageNums : List Nat) (force : Bool)
    (previousResults : List BatchRecord) : Option BatchRecord × Store × Bool :=
  match pageNums with
  | [] => (none, st, false)
  | p :: rest =>
    let startPage := rest.foldl Nat.min p
    let endPage := rest.foldl Nat.max p
    if force then analyze_batch_compute vlm st startPage endPage (p :: rest) previousResults
    else
      match load_batch_analysis st startPage endPage with
      | some cached =>
          if cached.parseError then
            analyze_batch_compute vlm st startPage endPage (p :: rest) previousResults
          else (some cached, st, false)
      | none => analyze_batch_compute vlm st startPage endPage (p :: rest) previousResults

/-- Embeds `AnalysisTaskManager._analyze_single_batch` (task_manager.py:555-583): build
the context window from the non-error prior results, call
`analyzer.analyze_batch` through a fallible oracle (`none` = the call raised);
on failure extend the failed-pages list by the batch's page numbers and emit
no result.
-/
def analyze_single_batch (analyze : List Nat → List BatchRecord → Option BatchRecord)
    (batchResults : List BatchRecord) (contextBatchCount : Int)
    (pageNums : List Nat) (failedPages : List Nat) :
    Option BatchRecord × List Nat :=
  let previousResults := contextWindow batchResults contextBatchCount
  match analyze pageNums previousResults with
  | some result => (some result, failedPages)
  | none => (none, failedPages ++ pageNums)

/-- The page numbers of batch `batchIdx` in the non-chapter-aligned partition
of `_execute_batch_analysis_layer` (task_manager.py:536-544): 1-based pages
`[batchIdx*pagesPerBatch + 1, min((batchIdx+1)*pagesPerBatch, totalPages)]`. -/
def batchPageNums (totalPages pagesPerBatch batchIdx : Nat) : List Nat :=
  let startIdx := batchIdx * pagesPerBatch
  let endIdx := min (startIdx + pagesPerBatch) totalPages
  (List.range (endIdx - startIdx)).map (fun i => startIdx + i + 1)

/-- The batch loop of `AnalysisTaskManager._execute_batch_analysis_layer`
(task_manager.py:534-553), non-chapter-aligned branch: before each batch
consult the checkpoint (`check batchIdx` is the value of
`_check_pause_and_cancel` at that iteration; `false` returns the results
accumulated so far), analyze the batch, append the result on success, and
thread the failed-pages list.
-/
def batchLayerLoop (analyze : List Nat → List BatchRecord → Option BatchRecord)
    (check : Nat → Bool) (totalPages pagesPerBatch : Nat) (contextBatchCount : Int) :
    Nat → Nat → List BatchRecord → List Nat → List BatchRecord × List Nat
  | _, 0, batchResults, failedPages => (batchResults, failedPages)
  | batchIdx, remaining + 1, batchResults, failedPages =>
    if check batchIdx then
      let pns := batchPageNums totalPages pagesPerBatch batchIdx
      match analyze_single_batch analyze batchResults contextBatchCount pns failedPages with
      | (some result, failedPages') =>
          batchLayerLoop analyze check totalPages pagesPerBatch contextBatchCount
            (batchIdx + 1) remaining (batchResults ++ [result]) failedPages'
      | (none, failedPages') =>
          batchLayerLoop analyze check totalPages pagesPerBatch contextBatchCount
            (batchIdx + 1) remaining batchResults failedPages'
    else (batchResults, failedPages)

/-- Embeds `AnalysisTaskManager._execute_batch_analysis_layer` (task_manager.py:504-553),
non-chapter-aligned branch, paired with the task's failed-pages list (empty at
tier start): `ceil(totalPages / pagesPerBatch)` batches driven through
`batchLayerLoop`.
-/
def execute_batch_analysis_layer (analyze : List Nat → List BatchRecord → Option BatchRecord)
    (check : Nat → Bool) (totalPages pagesPerBatch : Nat) (contextBatchCount : Int) :
    List BatchRecord × List Nat :=
  batchLayerLoop analyze check totalPages pagesPerBatch contextBatchCount
    0 ((totalPages + pagesPerBatch - 1) / pagesPerBatch) [] []

/-- Reference outcome trace for the batch tier: process every batch index in order
(never aborting), threading the successful results for the context window
exactly as the loop does, and record for each batch its page numbers and the
oracle's outcome.  By construction this trace visits all batches; the claim
theorem proves the implementation loop refines it.
-/
def specOutcomesLoop (analyze : List Nat → List BatchRecord → Option BatchRecord)
    (totalPages pagesPerBatch : Nat) (contextBatchCount : Int) :
    Nat → Nat → List BatchRecord → List (List Nat × Option BatchRecord)
  | _, 0, _ => []
  | batchIdx, remaining + 1, batchResults =>
    let pns := batchPageNums totalPages pagesPerBatch batchIdx
    match analyze pns (contextWindow batchResults contextBatchCount) with
    | some result =>
        (pns, some result) ::
          specOutcomesLoop analyze totalPages pagesPerBatch contextBatchCount
            (batchIdx + 1) remaining (batchResults ++ [result])
    | none =>
        (pns, none) ::
          specOutcomesLoop analyze totalPages pagesPerBatch contextBatchCount
            (batchIdx + 1) remaining batchResults

/-- The full reference outcome trace of one batch-tier run. -/
def specBatchOutcomes (analyze : List Nat → List BatchRecord → Option BatchRecord)
    (totalPages pagesPerBatch : Nat) (contextBatchCount : Int) :
    List (List Nat × Option BatchRecord) :=
  specOutcomesLoop analyze totalPages pagesPerBatch contextBatchCount
    0 ((totalPages + pagesPerBatch - 1) / pagesPerBatch) []

/-- The effective group size of an aggregation tier
(`_execute_summary_layer`, task_manager.py:594-595): `units_per_group` itself
when positive, else the whole input count ("collapse all into one").
-/
def effUnits {α : Type} (inputs : List α) (unitsPerGroup : Int) : Nat :=
  if unitsPerGroup ≤ 0 then inputs.length else unitsPerGroup.toNat

/-- The number of groups an aggregation tier forms
(task_manager.py:590-597): none for empty input, else
`ceil(n / effUnits)` computed as `(n + u - 1) / u`. -/
def numGroups {α : Type} (inputs : List α) (unitsPerGroup : Int) : Nat :=
  if inputs.isEmpty then 0
  else (inputs.length + effUnits inputs unitsPerGroup - 1) / effUnits inputs unitsPerGroup

/-- Group `g` of an aggregation tier (task_manager.py:604-606):
the input slice `[g*u, min((g+1)*u, n))`. -/
def summaryGroup {α : Type} (inputs : List α) (unitsPerGroup : Int) (g : Nat) : List α :=
  (inputs.drop (g * effUnits inputs unitsPerGroup)).take (effUnits inputs unitsPerGroup)

/-- All groups of an aggregation tier, in order. -/
def summaryGroups {α : Type} (inputs : List α) (unitsPerGroup : Int) : List (List α) :=
  (List.range (numGroups inputs unitsPerGroup)).map (summaryGroup inputs unitsPerGroup)

/-- The group loop of `AnalysisTaskManager._execute_summary_layer`
(task_manager.py:600-619): before each group consult the checkpoint; slice the
group; call `generate_segment_summary` through a fallible oracle `gen`
(`none` = the call raised: the error is logged, the group emits and persists
nothing, and the loop continues with the next group); append the result on
success.
-/
def summaryLoop {α β : Type} (gen : Nat → List α → Option β) (check : Nat → Bool)
    (inputs : List α) (u : Nat) :
    Nat → Nat → List β → List β
  | _, 0, acc => acc
  | g, remaining + 1, acc =>
    if check g then
      let groupItems := (inputs.drop (g * u)).take u
      let acc' :=
        match gen g groupItems with
        | some result => acc ++ [result]
        | none => acc
      summaryLoop gen check inputs u (g + 1) remaining acc'
    else acc

/-- Embeds `AnalysisTaskManager._execute_summary_layer` (task_manager.py:585-619): empty
input skips the tier; `units_per_group ≤ 0` collapses all inputs into one
group; the groups are driven through `summaryLoop`.  (`gen g` models
`generate_segment_summary` on the segment id built from the layer and group
indices.)
-/
def execute_summary_layer {α β : Type} (gen : Nat → List α → Option β)
    (check : Nat → Bool) (inputs : List α) (unitsPerGroup : Int) : List β :=
  if inputs.isEmpty then []
  else
    let u := effUnits inputs unitsPerGroup
    summaryLoop gen check inputs u 0 ((inputs.length + u - 1) / u) []

/-! ## Association-list lemmas -/

theorem dictGet_dictSet_self {κ β : Type} [DecidableEq κ] (m : List (κ × β)) (k : κ)
    (v : β) : dictGet (dictSet m k v) k = some v := by
  simp [dictSet, dictGet]

theorem dictGet_filter_ne {κ β : Type} [DecidableEq κ] (m : List (κ × β)) (k k' : κ)
    (h : k' ≠ k) :
    dictGet (m.filter (fun p => p.1 ≠ k)) k' = dictGet m k' := by
  induction m with
  | nil => rfl
  | cons p rest ih =>
    rcases p with ⟨pk, pv⟩
    by_cases hp : pk = k
    · subst hp
      have hk : ¬ (k' = pk) := h
      simp only [ne_eq, decide_not] at ih
      simp [List.filter_cons, dictGet, hk, ih]
    · by_cases hk : k' = pk
      · subst hk
        simp [List.filter_cons, dictGet, hp]
      · simp only [ne_eq, decide_not] at ih
        simp [List.filter_cons, dictGet, hk, hp, ih]

theorem dictGet_dictSet_ne {κ β : Type} [DecidableEq κ] (m : List (κ × β)) (k k' : κ)
    (v : β) (h : k' ≠ k) : dictGet (dictSet m k v) k' = dictGet m k' := by
  simp only [dictSet, dictGet, if_neg h]
  exact dictGet_filter_ne m k k' h

theorem mem_dictSet {κ β : Type} [DecidableEq κ] {m : List (κ × β)} {k : κ} {v : β}
    {kv : κ × β} (h : kv ∈ dictSet m k v) : kv = (k, v) ∨ kv ∈ m := by
  rcases List.mem_cons.1 h with heq | hmem
  · exact Or.inl heq
  · exact Or.inr (List.mem_of_mem_filter hmem)

/-! ## Claim theorems -/

/-- Claim C9: `analyze_batch` called with an empty page-number list returns the
empty dict (modelled `none`) immediately: the Result Store is returned
untouched (the early return at analyzer.py:231-232 happens before any store
access) and the Content Analysis Client is not invoked.
-/
theorem analyze_batch_empty_pages
    (vlm : List Nat → Nat → List BatchRecord → BatchRecord) (st : Store)
    (force : Bool) (previousResults : List BatchRecord) :
    analyze_batch vlm st [] force previousResults = (none, st, false) := rfl

/-- Claim C1: On a non-forced `analyze_batch` call with a non-empty page list, if
the Result Store holds a record for the range (min pageNums, max pageNums)
that is not flagged `parse_error`, the call returns that cached record
unchanged, does not invoke the Content Analysis Client, and leaves the store
unchanged.
-/
theorem analyze_batch_cache_hit
    (vlm : List Nat → Nat → List BatchRecord → BatchRecord) (st : Store)
    (p : Nat) (rest : List Nat) (previousResults : List BatchRecord)
    (cached : BatchRecord)
    (hload : load_batch_analysis st (rest.foldl Nat.min p) (rest.foldl Nat.max p)
      = some cached)
    (herr : cached.parseError = false) :
    analyze_batch vlm st (p :: rest) false previousResults = (some cached, st, false) := by
  simp [analyze_batch, hload, herr]

/-- Witness for C1 at a concrete store holding a clean record for range (1, 3). -/
theorem analyze_batch_cache_hit_witness :
    analyze_batch (fun _ _ _ => {})
        { batches := [((1, 3), { batchSummary := "s" })], pages := [] }
        [1, 2, 3] false []
      = (some { batchSummary := "s" },
         { batches := [((1, 3), { batchSummary := "s" })], pages := [] }, false) :=
  analyze_batch_cache_hit _ _ 1 [2, 3] [] _ rfl rfl

/-- Claim C10: `save_batch_analysis start end analysis` overwrites the record's
`page_range` with `{start, end}` before persisting, so the record stored under
key (start, end) carries exactly that range; consequently the
identity-equals-page-range invariant is preserved: if every persisted batch
record's `page_range` equals its key before the save, the same holds after.
-/
theorem save_batch_analysis_stamps_key
    (st : Store) (startPage endPage : Nat) (analysis : BatchRecord)
    (hinv : ∀ kv ∈ st.batches, kv.2.pageRange = some kv.1) :
    load_batch_analysis (save_batch_analysis st startPage endPage analysis)
        startPage endPage
      = some { analysis with pageRange := some (startPage, endPage) } ∧
    ∀ kv ∈ (save_batch_analysis st startPage endPage analysis).batches,
      kv.2.pageRange = some kv.1 := by
  constructor
  · simp [load_batch_analysis, save_batch_analysis, dictGet_dictSet_self]
  · intro kv hkv
    rcases mem_dictSet hkv with heq | hmem
    · subst heq
      rfl
    · exact hinv kv hmem

/-- Witness for C10: saving into an empty store yields a record stamped with
its key. -/
theorem save_batch_analysis_stamps_key_witness :
    load_batch_analysis (save_batch_analysis { batches := [], pages := [] } 2 7 {}) 2 7
      = some { pageRange := some (2, 7) } :=
  (save_batch_analysis_stamps_key { batches := [], pages := [] } 2 7 {} (by simp)).1

/-- Claim C4: For a batch with `context_batch_count > 0`, the prior-results context
window contains at most `context_batch_count` entries, contains no result
flagged `parse_error`, and is exactly the most recent non-error prior results
in oldest-first order: it is the final segment of the non-error sublist, of
length `min context_batch_count (number of non-error priors)`.
-/
theorem context_window_spec (batchResults : List BatchRecord) (k : Int) (hk : 0 < k) :
    (contextWindow batchResults k).length ≤ k.toNat ∧
    (∀ r ∈ contextWindow batchResults k, r.parseError = false) ∧
    ∃ dropped, dropped ++ contextWindow batchResults k
        = batchResults.filter (fun r => !r.parseError) ∧
      (contextWindow batchResults k).length
        = min k.toNat (batchResults.filter (fun r => !r.parseError)).length := by
  have hw : contextWindow batchResults k
      = (batchResults.filter (fun r => !r.parseError)).drop
          ((batchResults.filter (fun r => !r.parseError)).length - k.toNat) := by
    simp [contextWindow, if_pos hk]
  refine ⟨?_, ?_, (batchResults.filter (fun r => !r.parseError)).take
      ((batchResults.filter (fun r => !r.parseError)).length - k.toNat), ?_, ?_⟩
  · rw [hw, List.length_drop]
    omega
  · intro r hr
    rw [hw] at hr
    have hr' := List.mem_of_mem_drop hr
    rw [List.mem_filter] at hr'
    simpa using hr'.2
  · rw [hw, List.take_append_drop]
  · rw [hw, List.length_drop]
    omega

/-- Witness for C4 at a window of size 2 over three priors, one of them flagged
as a parse error. -/
theorem context_window_spec_witness :
    (contextWindow [{ parseError := true }, {}, {}] 2).length ≤ (2 : Int).toNat :=
  (context_window_spec [{ parseError := true }, {}, {}] 2 (by decide)).1

/-- Taking `a` elements of `l` only ever takes up to `l.length` elements. -/
theorem take_min_length {α : Type} (l : List α) (a : Nat) :
    l.take a = l.take (min a l.length) := by
  rcases Nat.le_total a l.length with h | h
  · rw [Nat.min_eq_left h]
  · rw [Nat.min_eq_right h, List.take_of_length_le h, List.take_length]

/-- Concatenating the `ceil(n/u)` contiguous `u`-sized slices of a list
recovers the list (fuel-indexed induction on the length). -/
theorem join_groups_aux {α : Type} (u : Nat) (hu : 0 < u) :
    ∀ (n : Nat) (l : List α), l.length ≤ n →
      ((List.range ((l.length + u - 1) / u)).map
        (fun g => (l.drop (g * u)).take u)).flatten = l := by
  intro n
  induction n with
  | zero =>
    intro l hl
    have hnil : l = [] := List.eq_nil_of_length_eq_zero (Nat.le_zero.mp hl)
    subst hnil
    have h0 : (0 + u - 1) / u = 0 := Nat.div_eq_of_lt (by omega)
    simp [h0]
  | succ n ih =>
    intro l hl
    by_cases hnil : l = []
    · subst hnil
      have h0 : (0 + u - 1) / u = 0 := Nat.div_eq_of_lt (by omega)
      simp [h0]
    · have hlen : 0 < l.length := List.length_pos.mpr hnil
      have hN : (l.length + u - 1) / u = (l.length - 1) / u + 1 := by
        have harith : l.length + u - 1 = (l.length - 1) + u := by omega
        rw [harith, Nat.add_div_right _ hu]
      have hN' : ((l.drop u).length + u - 1) / u = (l.length - 1) / u := by
        rw [List.length_drop]
        rcases Nat.le_total l.length u with hle | hle
        · have h1 : l.length - u = 0 := by omega
          rw [h1]
          have h2 : (0 + u - 1) / u = 0 := Nat.div_eq_of_lt (by omega)
          have h3 : (l.length - 1) / u = 0 := Nat.div_eq_of_lt (by omega)
          rw [h2, h3]
        · have h1 : l.length - u + u - 1 = l.length - 1 := by omega
          rw [h1]
      have hstep : ∀ g : Nat, (l.drop ((g + 1) * u)).take u
          = ((l.drop u).drop (g * u)).take u := by
        intro g
        rw [List.drop_drop]
        congr 1
        rw [Nat.succ_mul, Nat.add_comm]
      rw [hN, List.range_succ_eq_map, List.map_cons, List.map_map, List.flatten_cons]
      have hmap : (List.map ((fun g => (l.drop (g * u)).take u) ∘ Nat.succ)
          (List.range ((l.length - 1) / u)))
          = List.map (fun g => ((l.drop u).drop (g * u)).take u)
            (List.range ((l.length - 1) / u)) := by
        apply List.map_congr_left
        intro g _
        simp only [Function.comp]
        have hsucc : Nat.succ g = g + 1 := rfl
        rw [hsucc, hstep g]
      rw [hmap, ← hN']
      have hrec : ((List.range (((l.drop u).length + u - 1) / u)).map
          (fun g => ((l.drop u).drop (g * u)).take u)).flatten = l.drop u := by
        apply ih
        rw [List.length_drop]
        omega
      rw [hrec]
      simp [List.take_append_drop]

/-- Claim C2: An aggregation tier over `n` inputs forms: no groups when `n = 0`;
exactly one group holding all inputs when `units_per_group ≤ 0`; otherwise
`ceil(n / units_per_group)` contiguous groups in original input order, group
`g` covering inputs `[g*u, min((g+1)*u, n))`.  In every case the groups
concatenate back to the input list (contiguous, in order, covering).
-/
theorem summary_layer_grouping {α : Type} (inputs : List α) (unitsPerGroup : Int) :
    (inputs = [] → summaryGroups inputs unitsPerGroup = []) ∧
    (unitsPerGroup ≤ 0 → inputs ≠ [] → summaryGroups inputs unitsPerGroup = [inputs]) ∧
    (0 < unitsPerGroup → inputs ≠ [] →
      numGroups inputs unitsPerGroup
          = (inputs.length + unitsPerGroup.toNat - 1) / unitsPerGroup.toNat ∧
      (∀ g, g < numGroups inputs unitsPerGroup ↔
          g * unitsPerGroup.toNat < inputs.length) ∧
      ∀ g, g < numGroups inputs unitsPerGroup →
        (summaryGroups inputs unitsPerGroup)[g]?
          = some ((inputs.drop (g * unitsPerGroup.toNat)).take
              (min unitsPerGroup.toNat (inputs.length - g * unitsPerGroup.toNat)))) ∧
    (summaryGroups inputs unitsPerGroup).flatten = inputs := by
  refine ⟨?_, ?_, ?_, ?_⟩
  · intro h
    subst h
    rfl
  · intro hle hne
    have hlen : 0 < inputs.length := List.length_pos.mpr hne
    have heff : effUnits inputs unitsPerGroup = inputs.length := by
      simp only [effUnits]
      rw [if_pos hle]
    have hnum : numGroups inputs unitsPerGroup = 1 := by
      simp only [numGroups, heff]
      rw [if_neg (by simpa [List.isEmpty_iff] using hne)]
      have harith : inputs.length + inputs.length - 1 = (inputs.length - 1) + inputs.length := by
        omega
      rw [harith, Nat.add_div_right _ hlen, Nat.div_eq_of_lt (by omega)]
    have hr1 : List.range 1 = [0] := rfl
    simp [summaryGroups, hnum, hr1, summaryGroup, heff]
  · intro hpos hne
    have hlen : 0 < inputs.length := List.length_pos.mpr hne
    have hu : 0 < unitsPerGroup.toNat := by omega
    have heff : effUnits inputs unitsPerGroup = unitsPerGroup.toNat := by
      simp only [effUnits]
      rw [if_neg (by omega : ¬ unitsPerGroup ≤ 0)]
    have hnum : numGroups inputs unitsPerGroup
        = (inputs.length + unitsPerGroup.toNat - 1) / unitsPerGroup.toNat := by
      simp only [numGroups, heff]
      rw [if_neg (by simpa [List.isEmpty_iff] using hne)]
    refine ⟨hnum, ?_, ?_⟩
    · intro g
      rw [hnum]
      have hceil : (inputs.length + unitsPerGroup.toNat - 1) / unitsPerGroup.toNat
          = (inputs.length - 1) / unitsPerGroup.toNat + 1 := by
        have harith : inputs.length + unitsPerGroup.toNat - 1
            = (inputs.length - 1) + unitsPerGroup.toNat := by omega
        rw [harith, Nat.add_div_right _ hu]
      rw [hceil]
      constructor
      · intro hg
        have hg' : g ≤ (inputs.length - 1) / unitsPerGroup.toNat := by omega
        have := (Nat.le_div_iff_mul_le hu).mp hg'
        omega
      · intro hg
        have hg' : g * unitsPerGroup.toNat ≤ inputs.length - 1 := by omega
        have := (Nat.le_div_iff_mul_le hu).mpr hg'
        omega
    · intro g hg
      have hg' : g < numGroups inputs unitsPerGroup := hg
      simp only [summaryGroups, List.getElem?_map]
      rw [List.getElem?_range hg']
      simp only [Option.map_some']
      rw [summaryGroup, heff]
      congr 1
      rw [take_min_length ((inputs.drop (g * unitsPerGroup.toNat))) unitsPerGroup.toNat,
        List.length_drop]
  · by_cases hnil : inputs = []
    · subst hnil
      rfl
    · have hlen : 0 < inputs.length := List.length_pos.mpr hnil
      have hu : 0 < effUnits inputs unitsPerGroup := by
        simp only [effUnits]
        by_cases hle : unitsPerGroup ≤ 0
        · rw [if_pos hle]
          exact hlen
        · rw [if_neg hle]
          omega
      have hnum : numGroups inputs unitsPerGroup
          = (inputs.length + effUnits inputs unitsPerGroup - 1)
            / effUnits inputs unitsPerGroup := by
        simp only [numGroups]
        rw [if_neg (by simpa [List.isEmpty_iff] using hnil)]
      simp only [summaryGroups, summaryGroup, hnum]
      exact join_groups_aux (effUnits inputs unitsPerGroup) hu inputs.length inputs
        (Nat.le_refl _)

/-- Witness for C2 at the spec §8 scenario shape: 3 inputs, groups of 2. -/
theorem summary_layer_grouping_witness :
    numGroups [10, 20, 30] (2 : Int)
      = (([10, 20, 30] : List Nat).length + (2 : Int).toNat - 1) / (2 : Int).toNat :=
  ((summary_layer_grouping [10, 20, 30] 2).2.2.1 (by decide) (by decide)).1

/-- The summary-layer loop under always-continuing checkpoints collects, in
order, the successful generation results of the groups `g, g+1, ...`. -/
theorem summaryLoop_spec {α β : Type} (gen : Nat → List α → Option β)
    (check : Nat → Bool) (inputs : List α) (u : Nat)
    (hcheck : ∀ g, check g = true) :
    ∀ (remaining g : Nat) (acc : List β),
      summaryLoop gen check inputs u g remaining acc
        = acc ++ (List.range remaining).filterMap
            (fun j => gen (g + j) ((inputs.drop ((g + j) * u)).take u)) := by
  intro remaining
  induction remaining with
  | zero =>
    intro g acc
    simp [summaryLoop]
  | succ r ih =>
    intro g acc
    rw [summaryLoop, hcheck g, if_pos rfl]
    cases hgen : gen g ((inputs.drop (g * u)).take u) with
    | none =>
      simp only [hgen]
      rw [ih (g + 1) acc, List.range_succ_eq_map, List.filterMap_cons, List.filterMap_map]
      simp only [Nat.add_zero, hgen]
      congr 1
      apply List.filterMap_congr
      intro j _
      simp only [Function.comp]
      have hidx : g + Nat.succ j = g + 1 + j := by omega
      rw [hidx]
    | some v =>
      simp only [hgen]
      rw [ih (g + 1) (acc ++ [v]), List.range_succ_eq_map, List.filterMap_cons,
        List.filterMap_map]
      simp only [Nat.add_zero, hgen, List.append_assoc, List.singleton_append]
      congr 2
      apply List.filterMap_congr
      intro j _
      simp only [Function.comp]
      have hidx : g + Nat.succ j = g + 1 + j := by omega
      rw [hidx]

/-- Claim C6: In an aggregation tier (under checkpoints that always continue), a
group whose generation call raises contributes nothing to the tier's output
(no SegmentResult is emitted or persisted for it — `generate_segment_summary`
persists exactly when it returns), and processing continues with the remaining
groups: the output is precisely the list of successful generation results of
all `numGroups` groups, in group order.
-/
theorem summary_layer_skips_failed_groups {α β : Type}
    (gen : Nat → List α → Option β) (check : Nat → Bool)
    (inputs : List α) (unitsPerGroup : Int)
    (hcheck : ∀ g, check g = true) :
    execute_summary_layer gen check inputs unitsPerGroup
      = (List.range (numGroups inputs unitsPerGroup)).filterMap
          (fun g => gen g (summaryGroup inputs unitsPerGroup g)) := by
  by_cases hnil : inputs.isEmpty
  · rw [execute_summary_layer, if_pos hnil, numGroups, if_pos hnil]
    rfl
  · rw [execute_summary_layer, if_neg hnil]
    rw [summaryLoop_spec gen check inputs _ hcheck _ 0 []]
    rw [numGroups, if_neg hnil]
    simp only [List.nil_append, Nat.zero_add]
    apply List.filterMap_congr
    intro g _
    rw [summaryGroup]

/-- Witness for C6: group 0 fails, group 1 succeeds; the tier still emits the
second group's result. -/
theorem summary_layer_skips_failed_groups_witness :
    execute_summary_layer
        (fun g _ => if g = 0 then (none : Option Nat) else some g)
        (fun _ => true) [1, 2, 3] (2 : Int)
      = [1] := by
  rw [summary_layer_skips_failed_groups
    (fun g _ => if g = 0 then (none : Option Nat) else some g)
    (fun _ => true) [1, 2, 3] (2 : Int) (fun _ => rfl)]
  decide

/-- A task in a terminal status rejects `pause_task`, `resume_task` and
`cancel_task` outright: each returns `false` and leaves the manager state
(hence the status, and the worker list) unchanged. -/
theorem terminalRejects (s : ManagerState) (tid : String) (task : TaskRec)
    (hlook : dictGet s.tasks tid = some task)
    (hterm : task.status.isTerminal = true) :
    pause_task s tid = (false, s) ∧
    resume_task s tid = (false, s) ∧
    cancel_task s tid = (false, s) := by
  have hne : task.status ≠ TaskStatus.running ∧ task.status ≠ TaskStatus.paused ∧
      ¬ (task.status = TaskStatus.pending ∨ task.status = TaskStatus.running ∨
         task.status = TaskStatus.paused) := by
    cases h : task.status <;> simp [TaskStatus.isTerminal, h] at hterm ⊢
  refine ⟨?_, ?_, ?_⟩
  · simp only [pause_task, hlook]
    rw [if_neg hne.1]
  · simp only [resume_task, hlook]
    rw [if_neg hne.2.1]
  · simp only [cancel_task, hlook]
    rw [if_neg hne.2.2]

/-- A `pause_task` call on another task id does not change this task's entry. -/
theorem pause_task_other (s : ManagerState) (t tid : String) (h : tid ≠ t) :
    dictGet (pause_task s t).2.tasks tid = dictGet s.tasks tid := by
  cases hget : dictGet s.tasks t with
  | none => simp [pause_task, hget]
  | some task =>
    by_cases hr : task.status = TaskStatus.running
    · simp only [pause_task, hget]
      rw [if_pos hr]
      exact dictGet_dictSet_ne _ _ _ _ h
    · simp only [pause_task, hget]
      rw [if_neg hr]

/-- A `resume_task` call on another task id does not change this task's entry. -/
theorem resume_task_other (s : ManagerState) (t tid : String) (h : tid ≠ t) :
    dictGet (resume_task s t).2.tasks tid = dictGet s.tasks tid := by
  cases hget : dictGet s.tasks t with
  | none => simp [resume_task, hget]
  | some task =>
    by_cases hr : task.status = TaskStatus.paused
    · simp only [resume_task, hget]
      rw [if_pos hr]
      exact dictGet_dictSet_ne _ _ _ _ h
    · simp only [resume_task, hget]
      rw [if_neg hr]

/-- A `cancel_task` call on another task id does not change this task's entry. -/
theorem cancel_task_other (s : ManagerState) (t tid : String) (h : tid ≠ t) :
    dictGet (cancel_task s t).2.tasks tid = dictGet s.tasks tid := by
  cases hget : dictGet s.tasks t with
  | none => simp [cancel_task, hget]
  | some task =>
    by_cases hr : task.status = TaskStatus.pending ∨ task.status = TaskStatus.running ∨
        task.status = TaskStatus.paused
    · simp only [cancel_task, hget]
      rw [if_pos hr]
      exact dictGet_dictSet_ne _ _ _ _ h
    · simp only [cancel_task, hget]
      rw [if_neg hr]

/-- A `worker_finish` on another task id does not change this task's entry. -/
theorem worker_finish_other (s : ManagerState) (t tid : String) (h : tid ≠ t) :
    dictGet (worker_finish s t).tasks tid = dictGet s.tasks tid := by
  cases hget : dictGet s.tasks t with
  | none => simp [worker_finish, hget]
  | some task =>
    by_cases hc : (dictGet s.cancelFlags t).getD false = true
    · simp only [worker_finish, hget]
      rw [if_pos hc]
      exact dictGet_dictSet_ne _ _ _ _ h
    · simp only [worker_finish, hget]
      rw [if_neg hc]
      exact dictGet_dictSet_ne _ _ _ _ h

/-- A `worker_fail` on another task id does not change this task's entry. -/
theorem worker_fail_other (s : ManagerState) (t tid : String) (h : tid ≠ t) :
    dictGet (worker_fail s t).tasks tid = dictGet s.tasks tid := by
  cases hget : dictGet s.tasks t with
  | none => simp [worker_fail, hget]
  | some task =>
    simp only [worker_fail, hget]
    exact dictGet_dictSet_ne _ _ _ _ h

/-- One controller or worker operation preserves "this task exists and its
status is terminal". -/
theorem applyOp_preserves_terminal (s : ManagerState) (tid : String) (op : WorkerOp)
    (h : ∃ task, dictGet s.tasks tid = some task ∧ task.status.isTerminal = true) :
    ∃ task, dictGet (applyOp s op).tasks tid = some task ∧
      task.status.isTerminal = true := by
  obtain ⟨task, hlook, hterm⟩ := h
  cases op with
  | pauseCall t =>
    by_cases ht : tid = t
    · subst ht
      rw [applyOp, (terminalRejects s tid task hlook hterm).1]
      exact ⟨task, hlook, hterm⟩
    · rw [applyOp]
      rw [pause_task_other s t tid ht]
      exact ⟨task, hlook, hterm⟩
  | resumeCall t =>
    by_cases ht : tid = t
    · subst ht
      rw [applyOp, (terminalRejects s tid task hlook hterm).2.1]
      exact ⟨task, hlook, hterm⟩
    · rw [applyOp]
      rw [resume_task_other s t tid ht]
      exact ⟨task, hlook, hterm⟩
  | cancelCall t =>
    by_cases ht : tid = t
    · subst ht
      rw [applyOp, (terminalRejects s tid task hlook hterm).2.2]
      exact ⟨task, hlook, hterm⟩
    · rw [applyOp]
      rw [cancel_task_other s t tid ht]
      exact ⟨task, hlook, hterm⟩
  | finishCall t =>
    by_cases ht : tid = t
    · subst ht
      rw [applyOp]
      by_cases hc : (dictGet s.cancelFlags tid).getD false = true
      · refine ⟨{ task with status := TaskStatus.cancelled }, ?_, rfl⟩
        simp only [worker_finish, hlook]
        rw [if_pos hc]
        exact dictGet_dictSet_self _ _ _
      · refine ⟨{ task with status := TaskStatus.completed }, ?_, rfl⟩
        simp only [worker_finish, hlook]
        rw [if_neg hc]
        exact dictGet_dictSet_self _ _ _
    · rw [applyOp]
      rw [worker_finish_other s t tid ht]
      exact ⟨task, hlook, hterm⟩
  | failCall t =>
    by_cases ht : tid = t
    · subst ht
      rw [applyOp]
      refine ⟨{ task with status := TaskStatus.failed }, ?_, rfl⟩
      simp only [worker_fail, hlook]
      exact dictGet_dictSet_self _ _ _
    · rw [applyOp]
      rw [worker_fail_other s t tid ht]
      exact ⟨task, hlook, hterm⟩

/-- A sequence of controller/worker operations preserves "this task exists and
its status is terminal". -/
theorem applyOps_preserves_terminal (tid : String) (ops : List WorkerOp) :
    ∀ (s : ManagerState),
      (∃ task, dictGet s.tasks tid = some task ∧ task.status.isTerminal = true) →
      ∃ task, dictGet (applyOps s ops).tasks tid = some task ∧
        task.status.isTerminal = true := by
  induction ops with
  | nil =>
    intro s h
    exact h
  | cons op rest ih =>
    intro s h
    rw [applyOps, List.foldl_cons]
    exact ih (applyOp s op) (applyOp_preserves_terminal s tid op h)

/-- Concrete manager state for the C3 counterexample: one Completed task. -/
def terminalDemoState : ManagerState :=
  { tasks := [("t1", { bookId := "b", status := TaskStatus.completed })],
    bookTasks := [("b", ["t1"])],
    pauseEvents := [("t1", true)],
    cancelFlags := [("t1", false)],
    workers := [] }

/-- Claim C3, counterexample: the claim "no controller operation changes a terminal
task's status or launches a worker" is false as stated: on a concrete state
whose only task is Completed (a terminal status), `start_task` succeeds,
moves the task back to Running, and launches a worker.  (`start_task`,
task_manager.py:105-123, guards only against "already Running" and
"another task of the same book is Running", not against terminal states.)
-/
theorem terminal_transition_counterexample :
    statusOf terminalDemoState "t1" = some TaskStatus.completed ∧
    (start_task terminalDemoState "t1").1 = true ∧
    statusOf (start_task terminalDemoState "t1").2 "t1" = some TaskStatus.running ∧
    (start_task terminalDemoState "t1").2.workers = ["t1"] := by
  refine ⟨rfl, rfl, rfl, rfl⟩

/-- Claim C3, amended: for every task whose status is terminal (Cancelled,
Completed, or Failed), the controller operations `pause_task`, `resume_task`
and `cancel_task` reject the call and change nothing: no status change and no
worker launched.  (`start_task` is excluded: it is not guarded against
terminal states and can restart such a task, as the counterexample shows.)
-/
theorem terminal_states_no_transition_amended
    (s : ManagerState) (tid : String) (task : TaskRec)
    (hlook : dictGet s.tasks tid = some task)
    (hterm : task.status.isTerminal = true) :
    pause_task s tid = (false, s) ∧
    resume_task s tid = (false, s) ∧
    cancel_task s tid = (false, s) :=
  terminalRejects s tid task hlook hterm

/-- Witness for the amended C3 at the concrete Completed-task state. -/
theorem terminal_states_no_transition_amended_witness :
    pause_task terminalDemoState "t1" = (false, terminalDemoState) :=
  (terminal_states_no_transition_amended terminalDemoState "t1"
    { bookId := "b", status := TaskStatus.completed } rfl rfl).1

/-- Claim C7: `start_task` is rejected (returns `false`) whenever the task's status
is already Running, or some other task of the same book is Running; in either
rejected case the manager state — the task's status included — is unchanged
and no worker is launched.
-/
theorem start_task_rejected
    (s : ManagerState) (tid : String) (task : TaskRec)
    (hlook : dictGet s.tasks tid = some task) :
    (task.status = TaskStatus.running → start_task s tid = (false, s)) ∧
    (∀ tid' other, tid' ∈ (dictGet s.bookTasks task.bookId).getD [] → tid' ≠ tid →
        dictGet s.tasks tid' = some other → other.status = TaskStatus.running →
        start_task s tid = (false, s)) := by
  constructor
  · intro hrun
    simp only [start_task, hlook]
    rw [if_pos hrun]
  · intro tid' other hmem hne hlook' hrun
    by_cases hr : task.status = TaskStatus.running
    · simp only [start_task, hlook]
      rw [if_pos hr]
    · have hany : ((dictGet s.bookTasks task.bookId).getD []).any (fun t =>
          match dictGet s.tasks t with
          | some other =>
              decide (¬ t = tid) && decide (other.status = TaskStatus.running)
          | none => false) = true := by
        rw [List.any_eq_true]
        refine ⟨tid', hmem, ?_⟩
        rw [hlook']
        simp [hne, hrun]
      simp only [start_task, hlook]
      rw [if_neg hr, if_pos hany]

/-- Concrete manager state for the C7 witness: "t1" Running, "t2" Pending,
same book. -/
def rejectDemoState : ManagerState :=
  { tasks := [("t1", { bookId := "b", status := TaskStatus.running }),
              ("t2", { bookId := "b", status := TaskStatus.pending })],
    bookTasks := [("b", ["t1", "t2"])],
    pauseEvents := [("t1", true), ("t2", true)],
    cancelFlags := [("t1", false), ("t2", false)],
    workers := ["t1"] }

/-- Witness for C7: starting "t2" while "t1" of the same book is Running is
rejected with the state unchanged. -/
theorem start_task_rejected_witness :
    start_task rejectDemoState "t2" = (false, rejectDemoState) :=
  (start_task_rejected rejectDemoState "t2"
      { bookId := "b", status := TaskStatus.pending } rfl).2
    "t1" { bookId := "b", status := TaskStatus.running }
    (by decide) (by decide) rfl rfl

/-- Claim C5: Pausing a Running task and then cancelling it: both calls succeed,
the status becomes Cancelled, the pause gate is signalled (`some true`, so the
blocked worker wakes up), the woken worker's checkpoint observes the cancel
flag (`check_pause_and_cancel` returns `false`, i.e. it stops instead of
resuming work), and under any subsequent sequence of controller calls
(pause/resume/cancel, on any tasks) and worker terminations the task's status
never returns to Running.
-/
theorem pause_then_cancel_stays_cancelled
    (s : ManagerState) (tid : String) (task : TaskRec) (ops : List WorkerOp)
    (hlook : dictGet s.tasks tid = some task)
    (hrun : task.status = TaskStatus.running) :
    (pause_task s tid).1 = true ∧
    (cancel_task (pause_task s tid).2 tid).1 = true ∧
    statusOf (cancel_task (pause_task s tid).2 tid).2 tid
      = some TaskStatus.cancelled ∧
    dictGet (cancel_task (pause_task s tid).2 tid).2.pauseEvents tid = some true ∧
    check_pause_and_cancel (cancel_task (pause_task s tid).2 tid).2 tid = false ∧
    statusOf (applyOps (cancel_task (pause_task s tid).2 tid).2 ops) tid
      ≠ some TaskStatus.running := by
  have hp : pause_task s tid
      = (true, { s with
          tasks := dictSet s.tasks tid { task with status := TaskStatus.paused },
          pauseEvents := dictSet s.pauseEvents tid false }) := by
    simp only [pause_task, hlook]
    rw [if_pos hrun]
  have hlook1 : dictGet (dictSet s.tasks tid { task with status := TaskStatus.paused }) tid
      = some { task with status := TaskStatus.paused } := dictGet_dictSet_self _ _ _
  have hev1 : dictGet (dictSet s.pauseEvents tid false) tid = some false :=
    dictGet_dictSet_self _ _ _
  have hc : cancel_task (pause_task s tid).2 tid
      = (true, { s with
          tasks := dictSet (dictSet s.tasks tid { task with status := TaskStatus.paused })
            tid { task with status := TaskStatus.cancelled },
          cancelFlags := dictSet s.cancelFlags tid true,
          pauseEvents := dictSet (dictSet s.pauseEvents tid false) tid true }) := by
    rw [hp]
    simp [cancel_task, hlook1, hev1]
  refine ⟨by rw [hp], by rw [hc], ?_, ?_, ?_, ?_⟩
  · rw [hc]
    simp [statusOf, dictGet_dictSet_self]
  · rw [hc]
    simp [dictGet_dictSet_self]
  · rw [hc]
    simp [check_pause_and_cancel, dictGet_dictSet_self]
  · rw [hc]
    have hinv := applyOps_preserves_terminal tid ops
      { s with
        tasks := dictSet (dictSet s.tasks tid { task with status := TaskStatus.paused })
          tid { task with status := TaskStatus.cancelled },
        cancelFlags := dictSet s.cancelFlags tid true,
        pauseEvents := dictSet (dictSet s.pauseEvents tid false) tid true }
      ⟨{ task with status := TaskStatus.cancelled },
        dictGet_dictSet_self _ _ _, rfl⟩
    obtain ⟨task', hlook', hterm'⟩ := hinv
    rw [statusOf, hlook']
    intro hcontra
    simp only [Option.map_some', Option.some.injEq] at hcontra
    rw [hcontra] at hterm'
    exact absurd hterm' (by decide)

/-- The batch loop under always-continuing checkpoints refines the reference
outcome trace: emitted results are the successes, the failed-pages list grows
by exactly the page numbers of the failing batches, in order. -/
theorem batchLayerLoop_spec (analyze : List Nat → List BatchRecord → Option BatchRecord)
    (check : Nat → Bool) (tp ppb : Nat) (ctx : Int)
    (hcheck : ∀ g, check g = true) :
    ∀ (remaining batchIdx : Nat) (results : List BatchRecord) (failed : List Nat),
      batchLayerLoop analyze check tp ppb ctx batchIdx remaining results failed
        = (results
            ++ (specOutcomesLoop analyze tp ppb ctx batchIdx remaining results).filterMap
                Prod.snd,
           failed
            ++ ((specOutcomesLoop analyze tp ppb ctx batchIdx remaining results).filterMap
                (fun p => if p.2.isNone then some p.1 else none)).flatten) := by
  intro remaining
  induction remaining with
  | zero =>
    intro batchIdx results failed
    simp [batchLayerLoop, specOutcomesLoop]
  | succ r ih =>
    intro batchIdx results failed
    rw [batchLayerLoop, hcheck batchIdx, if_pos rfl]
    rw [specOutcomesLoop]
    cases han : analyze (batchPageNums tp ppb batchIdx) (contextWindow results ctx) with
    | some rec =>
      have hstep : analyze_single_batch analyze results ctx
          (batchPageNums tp ppb batchIdx) failed = (some rec, failed) := by
        simp [analyze_single_batch, han]
      simp only [hstep, han]
      rw [ih batchIdx.succ (results ++ [rec]) failed]
      simp [List.filterMap_cons, List.append_assoc]
    | none =>
      have hstep : analyze_single_batch analyze results ctx
          (batchPageNums tp ppb batchIdx) failed
          = (none, failed ++ batchPageNums tp ppb batchIdx) := by
        simp [analyze_single_batch, han]
      simp only [hstep, han]
      rw [ih batchIdx.succ results (failed ++ batchPageNums tp ppb batchIdx)]
      simp [List.filterMap_cons, List.append_assoc]

/-- The reference trace attempts every batch, in index order, whatever the
outcomes: its page-number column is exactly the full batch partition. -/
theorem specOutcomesLoop_fst (analyze : List Nat → List BatchRecord → Option BatchRecord)
    (tp ppb : Nat) (ctx : Int) :
    ∀ (remaining batchIdx : Nat) (results : List BatchRecord),
      (specOutcomesLoop analyze tp ppb ctx batchIdx remaining results).map Prod.fst
        = (List.range remaining).map (fun j => batchPageNums tp ppb (batchIdx + j)) := by
  intro remaining
  induction remaining with
  | zero =>
    intro batchIdx results
    simp [specOutcomesLoop]
  | succ r ih =>
    intro batchIdx results
    rw [specOutcomesLoop]
    cases han : analyze (batchPageNums tp ppb batchIdx) (contextWindow results ctx) with
    | some rec =>
      simp only [han, List.map_cons]
      rw [ih batchIdx.succ (results ++ [rec]), List.range_succ_eq_map]
      simp only [List.map_cons, List.map_map, Nat.add_zero]
      congr 1
      apply List.map_congr_left
      intro j _
      simp only [Function.comp]
      congr 1
      omega
    | none =>
      simp only [han, List.map_cons]
      rw [ih batchIdx.succ results, List.range_succ_eq_map]
      simp only [List.map_cons, List.map_map, Nat.add_zero]
      congr 1
      apply List.map_congr_left
      intro j _
      simp only [Function.comp]
      congr 1
      omega

/-- Claim C8: In the batch tier (under checkpoints that always continue), a batch
whose analysis raises contributes all of its page numbers to the task's
failed-pages list and no result, and processing continues with the next batch:
the tier's outcome equals the reference trace that attempts every one of the
`ceil(totalPages / pagesPerBatch)` batches — emitted results are exactly the
successes in order, the failed-pages list is exactly the concatenated page
numbers of the failing batches in order, and the trace's batch partition
covers every batch index (a single failure never aborts the tier).
-/
theorem batch_layer_failure_tolerance
    (analyze : List Nat → List BatchRecord → Option BatchRecord)
    (check : Nat → Bool) (tp ppb : Nat) (ctx : Int)
    (hcheck : ∀ g, check g = true) :
    execute_batch_analysis_layer analyze check tp ppb ctx
      = ((specBatchOutcomes analyze tp ppb ctx).filterMap Prod.snd,
         ((specBatchOutcomes analyze tp ppb ctx).filterMap
            (fun p => if p.2.isNone then some p.1 else none)).flatten) ∧
    (specBatchOutcomes analyze tp ppb ctx).map Prod.fst
      = (List.range ((tp + ppb - 1) / ppb)).map (batchPageNums tp ppb) := by
  constructor
  · rw [execute_batch_analysis_layer, specBatchOutcomes,
      batchLayerLoop_spec analyze check tp ppb ctx hcheck ((tp + ppb - 1) / ppb) 0 [] []]
    simp
  · rw [specBatchOutcomes, specOutcomesLoop_fst analyze tp ppb ctx ((tp + ppb - 1) / ppb) 0 []]
    apply List.map_congr_left
    intro j _
    simp

/-- Witness for C8 at the spec §8 scenario: 12 pages, batches of 5, the batch
holding pages 6-10 fails; pages 6 through 10 land in the failed list. -/
theorem batch_layer_failure_tolerance_witness :
    (execute_batch_analysis_layer
        (fun pns _ => if pns.head? = some 6 then none else some {})
        (fun _ => true) 12 5 0).2 = [6, 7, 8, 9, 10] := by
  rw [(batch_layer_failure_tolerance
    (fun pns _ => if pns.head? = some 6 then none else some {})
    (fun _ => true) 12 5 0 (fun _ => rfl)).1]
  decide

/-- Concrete manager state for the C5 witness: one Running task. -/
def cancelDemoState : ManagerState :=
  { tasks := [("t1", { bookId := "b", status := TaskStatus.running })],
    bookTasks := [("b", ["t1"])],
    pauseEvents := [("t1", true)],
    cancelFlags := [("t1", false)],
    workers := ["t1"] }

/-- Witness for C5: after pause-then-cancel of "t1", a resume attempt followed
by the worker's termination leaves the task not Running. -/
theorem pause_then_cancel_stays_cancelled_witness :
    statusOf (applyOps (cancel_task (pause_task cancelDemoState "t1").2 "t1").2
        [WorkerOp.resumeCall "t1", WorkerOp.finishCall "t1"]) "t1"
      ≠ some TaskStatus.running :=
  (pause_then_cancel_stays_cancelled cancelDemoState "t1"
      { bookId := "b", status := TaskStatus.running }
      [WorkerOp.resumeCall "t1", WorkerOp.finishCall "t1"] rfl rfl).2.2.2.2.2

end MangaInsight
